import Mathlib

/-!
Verification of the foresignal scraper (`scripts/foresignal_scrape.py`).

Strings are modelled as `List Char` (Python strings are sequences of
codepoints).  Machine integers do not occur: Python integers are unbounded,
so `Int`/`Nat` model them exactly.  HTML parsing, HTTP and file I/O are
collaborators: parsed elements enter the model as plain data (the text that
`get_text` would return), and the orchestrator is modelled as a pure
function from its environment to the effects it performs.
-/

set_option autoImplicit false

set_option maxRecDepth 8000

namespace Foresignal

/-- Python strings are sequences of codepoints. -/
abbrev Str := List Char

/-- ASCII whitespace, as recognised by Python's `str.strip` and `\s`
(the model restricts to the ASCII range; the scraper only ever meets
ASCII whitespace). -/
def pyIsSpace (c : Char) : Bool :=
  c = ' ' || c = '\t' || c = '\n' || c = '\r' || c = '\x0b' || c = '\x0c'

/-- Python `str.strip()`: drop leading and trailing whitespace. -/
def pyStrip (s : Str) : Str :=
  ((s.dropWhile pyIsSpace).reverse.dropWhile pyIsSpace).reverse

/-- The constant `MAP = "670429+-. 5,813"` — the fixed 15-character decode alphabet. -/
def MAP : Str := "670429+-. 5,813".toList

/-- One iteration of the decode loop: the contribution of the character
`c` sitting at 0-based position `i`.  `idx = ord(ch) - 65 - i`; when
`0 <= idx < len(MAP)` the loop appends `MAP[idx]`, otherwise nothing. -/
def posContrib (i : Nat) (c : Char) : Str :=
  let idx : Int := (c.toNat : Int) - 65 - (i : Int)
  if 0 ≤ idx ∧ idx < (MAP.length : Int) then (MAP.get? idx.toNat).toList else []

/-- The decode loop of `decode_f`, carrying the running position. -/
def decodeGo : Str → Nat → Str
  | [], _ => []
  | c :: t, i => posContrib i c ++ decodeGo t (i + 1)

/-- Model of `decode_f(encoded)`: run the positional decode loop over the input and
strip the concatenated result. -/
def decode_f (encoded : Str) : Str :=
  pyStrip (decodeGo encoded 0)

/-- Per-position contribution exactly as claim C1 words it: with
`index = codepoint(char) - 65 - i`, append `MAP[index]` when
`0 <= index < 15`, contribute nothing otherwise. -/
def claimContrib (i : Nat) (c : Char) : Str :=
  let index : Int := (c.toNat : Int) - 65 - (i : Int)
  if 0 ≤ index ∧ index < 15 then (MAP.get? index.toNat).toList else []

/-- The decoder as claim C1 words it: concatenate the per-position
contributions over the enumerated input, then trim whitespace. -/
def decodeClaim (s : Str) : Str :=
  pyStrip ((s.enum.map fun p => claimContrib p.1 p.2).flatten)

/-- A character `c` at position `i` whose shifted index falls outside the
decode table. -/
def outOfRange (i : Nat) (c : Char) : Prop :=
  (c.toNat : Int) - 65 - (i : Int) < 0 ∨ (MAP.length : Int) ≤ (c.toNat : Int) - 65 - (i : Int)

instance (i : Nat) (c : Char) : Decidable (outOfRange i c) := by
  unfold outOfRange; infer_instance

/-! ### Regular-expression machinery

The script uses three regular expressions:
`NUM_RE = [-+]?\d+(?:\.\d+)?`, the token extractor `f\(\s*'([^']+)'\s*\)`
and the fragment eraser `f\(\s*'[^']+'\s*\)\s*;?`.  Each is embedded as a
deterministic matcher; the patterns are simple enough that greedy matching
with no backtracking is exact (every quantified class is disjoint from the
literal that follows it). -/

/-- The apostrophe delimiting tokens inside `f('...')`. -/
def quoteChar : Char := '\x27'

/-- ASCII decimal digit, as matched by `\d` on the scraper's input. -/
def isAsciiDigit (c : Char) : Bool := '0' ≤ c && c ≤ '9'

/-- Try to match `NUM_RE = [-+]?\d+(?:\.\d+)?` anchored at the head of `s`,
returning the matched text. -/
def tryMatchNum (s : Str) : Option Str :=
  let (sgn, r1) :=
    match s with
    | c :: t => if c = '-' || c = '+' then ([c], t) else (([] : Str), s)
    | [] => (([] : Str), s)
  let ds := r1.takeWhile isAsciiDigit
  if ds.isEmpty then none
  else
    let r2 := r1.drop ds.length
    let frac :=
      match r2 with
      | '.' :: r3 =>
          let fs := r3.takeWhile isAsciiDigit
          if fs.isEmpty then ([] : Str) else '.' :: fs
      | _ => ([] : Str)
    some (sgn ++ ds ++ frac)

/-- Model of `re.search(NUM_RE, s)`: the leftmost match of the signed-decimal
pattern, or `none`. -/
def searchNum : Str → Option Str
  | [] => none
  | s@(_ :: t) =>
    match tryMatchNum s with
    | some m => some m
    | none => searchNum t

/-- Try to match `f\(\s*'<token>'\s*\)` anchored at the head of `s`.
Returns the token together with the remainder after the closing
parenthesis. -/
def tryMatchF (s : Str) : Option (Str × Str) :=
  match s with
  | 'f' :: '(' :: r1 =>
    match r1.dropWhile pyIsSpace with
    | c :: r3 =>
      if c = quoteChar then
        let tok := r3.takeWhile (fun d => d ≠ quoteChar)
        if tok.isEmpty then none
        else
          match r3.drop tok.length with
          | d :: r5 =>
            if d = quoteChar then
              match r5.dropWhile pyIsSpace with
              | ')' :: r7 => some (tok, r7)
              | _ => none
            else none
          | [] => none
      else none
    | [] => none
  | _ => none

/-- Model of `re.search` for the token pattern: leftmost match, returning the
captured token. -/
def searchF : Str → Option Str
  | [] => none
  | s@(_ :: t) =>
    match tryMatchF s with
    | some (tok, _) => some tok
    | none => searchF t

/-- Anchored match of the fragment eraser `f\(\s*'[^']+'\s*\)\s*;?`,
returning the remainder after the whole match. -/
def tryMatchFrag (s : Str) : Option Str :=
  (tryMatchF s).map fun p =>
    match p.2.dropWhile pyIsSpace with
    | ';' :: r9 => r9
    | r8 => r8

/-- Fuelled scan for `re.sub(frag, "", s)`: each step either erases an
anchored fragment match or keeps one character.  The fuel is only a
termination device; called with `fuel = s.length` it never runs out,
because every fragment match consumes at least one character. -/
def subFragGo : Nat → Str → Str
  | 0, s => s
  | _ + 1, [] => []
  | fuel + 1, c :: t =>
    match tryMatchFrag (c :: t) with
    | some rest => subFragGo fuel rest
    | none => c :: subFragGo fuel t

/-- Model of `re.sub(r"f\(\s*'[^']+'\s*\)\s*;?", "", s)`: erase every fragment
match, scanning left to right. -/
def subFrag (s : Str) : Str := subFragGo s.length s

/-- Model of `re.sub(r"\s+", " ", s)`: replace each maximal whitespace run by a
single space.  The boolean records whether the previous character was
part of a whitespace run. -/
def collapseWsGo : Bool → Str → Str
  | _, [] => []
  | prev, c :: t =>
    if pyIsSpace c then
      if prev then collapseWsGo true t else ' ' :: collapseWsGo true t
    else c :: collapseWsGo false t

/-- Whitespace collapsing over a whole string. -/
def collapseWs (s : Str) : Str := collapseWsGo false s

/-! ### Value extraction from a signal-value cell -/

/-- A `.signal-value` cell as seen by the extractor: the stripped text of
its `<script>` child when one exists, and the cell's flattened text
(`get_text(" ", strip=True)`, which includes any script text). -/
structure Cell where
  script : Option Str
  text : Str
  deriving DecidableEq

/-- Model of `extract_encoded_from_script`: `None` on empty text, otherwise the
first `f('<token>')` capture. -/
def extract_encoded_from_script (scriptText : Str) : Option Str :=
  if scriptText.isEmpty then none else searchF scriptText

/-- The regex fallback of `value_from_signal_value`: collapse whitespace
and strip, erase residual `f('...')` fragments and strip again, then
search for the first signed-decimal substring. -/
def fallbackNum (text : Str) : Option Str :=
  searchNum (pyStrip (subFrag (pyStrip (collapseWs text))))

/-- Model of `value_from_signal_value` on a present cell: prefer decoding the
embedded `f('...')` token; fall back to the first plain numeric substring
of the cell text. -/
def value_from_signal_value (cell : Cell) : Option Str :=
  match cell.script with
  | some st =>
    match extract_encoded_from_script st with
    | some enc =>
      if enc.isEmpty then fallbackNum cell.text
      else
        let decoded := decode_f enc
        if decoded.isEmpty then fallbackNum cell.text else some decoded
    | none => fallbackNum cell.text
  | none => fallbackNum cell.text

/-- The expression `value_from_signal_value(value_el) or ""` as used by `parse_signals`. -/
def rowValue (cell : Cell) : Str := (value_from_signal_value cell).getD []

/-- The fallback value as claim C5 words it: the first signed-decimal
substring of the collapsed, fragment-stripped cell text, or the empty
string when there is no match. -/
def fallbackValue (text : Str) : Str := (fallbackNum text).getD []

/-- A concrete script text `f('LRU');` built without literal apostrophes. -/
def scriptLRU : Str :=
  "f(".toList ++ [quoteChar] ++ "LRU".toList ++ [quoteChar] ++ ");".toList

/-! ### The record dictionary and `parse_signals`

Each signal card yields a Python `dict`; the model is an association list
in insertion order, which is exactly a `dict`'s key order.  Assignment to
an existing key replaces its value in place; assignment to a fresh key
appends. -/

/-- A Python `dict` of string keys and string values, in key insertion
order. -/
abbrev Dict := List (Str × Str)

/-- Assignment `d[k] = v` on a Python dict: replace in place when the key exists,
append otherwise. -/
def setK : Dict → Str → Str → Dict
  | [], k, v => [(k, v)]
  | (k', v') :: t, k, v =>
      if k' = k then (k', v) :: t else (k', v') :: setK t k v

/-- Key lookup on a Python dict. -/
def lookupK : Dict → Str → Option Str
  | [], _ => none
  | (k', v) :: t, k => if k' = k then some v else lookupK t k

/-- The column keys of the record, in the `cols` order of the script. -/
def kPair : Str := "pair".toList

/-- Key of the status column. -/
def kStatus : Str := "status".toList

/-- Key of the sell-at column. -/
def kSellAt : Str := "sell_at".toList

/-- Key of the take-profit column. -/
def kTakeProfitAt : Str := "take_profit_at".toList

/-- Key of the stop-loss column. -/
def kStopLossAt : Str := "stop_loss_at".toList

/-- Key of the buy-at column. -/
def kBuyAt : Str := "buy_at".toList

/-- Key of the bought-at column. -/
def kBoughtAt : Str := "bought_at".toList

/-- Key of the sold-at column. -/
def kSoldAt : Str := "sold_at".toList

/-- The six price columns, `cols[2:]`. -/
def priceCols : List Str :=
  [kSellAt, kTakeProfitAt, kStopLossAt, kBuyAt, kBoughtAt, kSoldAt]

/-- Row title `"Sell at"`. -/
def strSellAt : Str := "Sell at".toList

/-- Row-title prefix `"Take profit"`. -/
def strTakeProfit : Str := "Take profit".toList

/-- Row title `"Stop loss at"`. -/
def strStopLossAt : Str := "Stop loss at".toList

/-- Row title `"Buy at"`. -/
def strBuyAt : Str := "Buy at".toList

/-- Row title `"Bought at"`. -/
def strBoughtAt : Str := "Bought at".toList

/-- Row title `"Sold at"`. -/
def strSoldAt : Str := "Sold at".toList

/-- A `.signal-row` as seen by the loop body: the title cell's text when a
`.signal-title` child exists, and the value cell when a `.signal-value`
child exists. -/
structure Row where
  title : Option Str
  value : Option Cell
  deriving DecidableEq

/-- A `.card.signal-card` element: the stripped text of the header's
signals anchor when present, the stripped text of the status row when
present, and the card's `.signal-row` elements in document order. -/
structure Card where
  pairEl : Option Str
  statusEl : Option Str
  rows : List Row
  deriving DecidableEq

/-- The `data` dict as initialised for each card: pair, status and the six
price fields, all price fields empty. -/
def initData (pair status : Str) : Dict :=
  [(kPair, pair), (kStatus, status), (kSellAt, []), (kTakeProfitAt, []),
   (kStopLossAt, []), (kBuyAt, []), (kBoughtAt, []), (kSoldAt, [])]

/-- The `if/elif` dispatch chain of the row loop: route `value` into the
field selected by `title`, or leave the dict unchanged. -/
def applyTitle (d : Dict) (title value : Str) : Dict :=
  if title = strSellAt then setK d kSellAt value
  else if strTakeProfit.isPrefixOf title then setK d kTakeProfitAt value
  else if title = strStopLossAt then setK d kStopLossAt value
  else if title = strBuyAt then setK d kBuyAt value
  else if title = strBoughtAt then setK d kBoughtAt value
  else if title = strSoldAt then setK d kSoldAt value
  else d

/-- One iteration of the row loop: rows missing a title or value cell are
skipped, otherwise the extracted value is dispatched by title. -/
def processRow (d : Dict) (r : Row) : Dict :=
  match r.title, r.value with
  | some t, some cell => applyTitle d t (rowValue cell)
  | _, _ => d

/-- The row loop over a card's `.signal-row` elements. -/
def processRows (d : Dict) (rows : List Row) : Dict :=
  rows.foldl processRow d

/-- One card of `parse_signals`: skip the card when the pair anchor is
missing, otherwise build the record dict from the card's rows. -/
def parseCard (c : Card) : Option Dict :=
  match c.pairEl with
  | none => none
  | some pair => some (processRows (initData pair (c.statusEl.getD [])) c.rows)

/-- The `astype(str).replace({"None": "", "nan": ""})` normalisation
applied to each price column. -/
def normVal (v : Str) : Str :=
  if v = "None".toList then [] else if v = "nan".toList then [] else v

/-- Normalisation of one dict entry: only price columns are rewritten. -/
def normEntry (k v : Str) : Str := if k ∈ priceCols then normVal v else v

/-- Normalisation of a whole record dict. -/
def normalizeDict (d : Dict) : Dict := d.map fun p => (p.1, normEntry p.1 p.2)

/-- Model of `parse_signals` on a parsed document: one record per card that has a
pair anchor, in document order, normalised per column. -/
def parse_signals (doc : List Card) : List Dict :=
  (doc.filterMap parseCard).map normalizeDict

/-- The pair field of a record. -/
def pairOf (d : Dict) : Str := (lookupK d kPair).getD []

/-- Lexicographic codepoint order on strings (Python `<=`). -/
def strLe : Str → Str → Bool
  | [], _ => true
  | _ :: _, [] => false
  | a :: s, b :: t => if a = b then strLe s t else decide (a.toNat < b.toNat)

/-- Sortedness by pair ascending, as claim C3 words it. -/
def sortedByPair : List Dict → Bool
  | a :: b :: t => strLe (pairOf a) (pairOf b) && sortedByPair (b :: t)
  | _ => true

/-- A minimal card with the given pair and no rows. -/
def bareCard (pair : Str) : Card := { pairEl := some pair, statusEl := none, rows := [] }

/-- The dispatch chain viewed as a partial map from titles to column
keys. -/
def titleKey (t : Str) : Option Str :=
  if t = strSellAt then some kSellAt
  else if strTakeProfit.isPrefixOf t then some kTakeProfitAt
  else if t = strStopLossAt then some kStopLossAt
  else if t = strBuyAt then some kBuyAt
  else if t = strBoughtAt then some kBoughtAt
  else if t = strSoldAt then some kSoldAt
  else none

/-- The column key a row dispatches to, if any. -/
def rowTarget (r : Row) : Option Str :=
  match r.title, r.value with
  | some t, some _ => titleKey t
  | _, _ => none

/-- The value a row contributes when dispatched. -/
def rowVal (r : Row) : Str :=
  match r.value with
  | some cell => rowValue cell
  | none => []

/-- A plain-text "Buy at" row with the given cell text. -/
def rowBuy (v : Str) : Row :=
  { title := some strBuyAt, value := some { script := none, text := v } }

/-! ### JSON serialisation (`json.dumps`)

The payload is a fixed shape — string fields plus a list of string-valued
dicts — so `json.dumps` is embedded for exactly that shape.  Characters
that the token rules keep out of string literals are named constants. -/

/-- The backslash character. -/
def backslashChar : Char := '\x5c'

/-- The double-quote character. -/
def dquoteChar : Char := '\x22'

/-- The opening curly bracket. -/
def lbraceChar : Char := '\x7b'

/-- The closing curly bracket. -/
def rbraceChar : Char := '\x7d'

/-- Lowercase hexadecimal digit, as produced by `json.dumps`. -/
def hexDigitChar (n : Nat) : Char :=
  if n < 10 then Char.ofNat (48 + n) else Char.ofNat (87 + n)

/-- A `\uXXXX` escape. -/
def uEscape (n : Nat) : Str :=
  [backslashChar, 'u', hexDigitChar (n / 4096 % 16), hexDigitChar (n / 256 % 16),
   hexDigitChar (n / 16 % 16), hexDigitChar (n % 16)]

/-- The `json.dumps` escaping of one character.  With `ensureAscii := false`
(the payload dump) only quotes, backslashes and control characters are
escaped; with `ensureAscii := true` (the summary dump) every character
outside `0x20`–`0x7e` is `\u`-escaped, using surrogate pairs beyond the
basic plane. -/
def escChar (ensureAscii : Bool) (c : Char) : Str :=
  if c = dquoteChar then [backslashChar, dquoteChar]
  else if c = backslashChar then [backslashChar, backslashChar]
  else if c = '\n' then [backslashChar, 'n']
  else if c = '\r' then [backslashChar, 'r']
  else if c = '\t' then [backslashChar, 't']
  else if c.toNat = 8 then [backslashChar, 'b']
  else if c.toNat = 12 then [backslashChar, 'f']
  else if c.toNat < 32 then uEscape c.toNat
  else if ensureAscii && 126 < c.toNat then
    if c.toNat < 65536 then uEscape c.toNat
    else uEscape (55296 + (c.toNat - 65536) / 1024) ++ uEscape (56320 + (c.toNat - 65536) % 1024)
  else [c]

/-- A JSON string literal. -/
def jsonStr (ensureAscii : Bool) (s : Str) : Str :=
  dquoteChar :: (s.map (escChar ensureAscii)).flatten ++ [dquoteChar]

/-- Join strings with a separator. -/
def joinSep (sep : Str) : List Str → Str
  | [] => []
  | [x] => x
  | x :: xs => x ++ sep ++ joinSep sep xs

/-- One record dict in compact form (separators `(",", ":")`), keys in
dict insertion order, exactly as `to_dict(orient="records")` hands it to
`json.dumps`. -/
def jsonDictCompact (d : Dict) : Str :=
  lbraceChar ::
    joinSep ",".toList (d.map fun p => jsonStr false p.1 ++ ":".toList ++ jsonStr false p.2)
  ++ [rbraceChar]

/-- The JSON payload built by `build_json`. -/
structure Payload where
  source : Str
  pulled_at : Str
  signals : List Dict
  deriving DecidableEq

/-- Model of `build_json(df, pulled_at_iso)`. -/
def build_json (df : List Dict) (pulledAtIso : Str) : Payload :=
  { source := "foresignal.com".toList, pulled_at := pulledAtIso, signals := df }

/-- Model of `json.dumps(payload, ensure_ascii=False, separators=(",", ":"))`. -/
def dumpsPayload (p : Payload) : Str :=
  lbraceChar ::
    (jsonStr false "source".toList ++ ":".toList ++ jsonStr false p.source
      ++ ",".toList ++ jsonStr false "pulled_at".toList ++ ":".toList
      ++ jsonStr false p.pulled_at
      ++ ",".toList ++ jsonStr false "signals".toList ++ ":".toList
      ++ "[".toList ++ joinSep ",".toList (p.signals.map jsonDictCompact) ++ "]".toList)
  ++ [rbraceChar]

/-- Decimal rendering of a Python `int`. -/
def natStr (n : Nat) : Str := Nat.toDigits 10 n

/-- Model of `json.dumps(summary)` with default options (`ensure_ascii=True`,
separators `(", ", ": ")`) for the three-field summary dict. -/
def dumpsSummary (p : Payload) : Str :=
  lbraceChar ::
    (jsonStr true "source".toList ++ ": ".toList ++ jsonStr true p.source
      ++ ", ".toList ++ jsonStr true "pulled_at".toList ++ ": ".toList
      ++ jsonStr true p.pulled_at
      ++ ", ".toList ++ jsonStr true "signals_count".toList ++ ": ".toList
      ++ natStr p.signals.length)
  ++ [rbraceChar]

/-- The text of the fallback summary message sent for oversized payloads. -/
def summaryMessage (p : Payload) : Str :=
  "Signals JSON is large. Summary:\n".toList ++ dumpsSummary p

/-! ### The Telegram sender and the orchestrator -/

/-- The observable outcome of `telegram_send_json`: skip with a log line
when credentials are missing, send the serialised payload as plain text,
or send a summary message plus the payload as an attached document. -/
inductive TelegramAction where
  | notConfigured
  | sentText (text : Str)
  | sentSummaryAndDocument (summary : Str) (document : Str) (filename : Str)
  deriving DecidableEq

/-- Python truthiness of an optional string (`not token`): `None` and the
empty string are falsy. -/
def pyTruthy : Option Str → Bool
  | none => false
  | some s => !s.isEmpty

/-- Model of `telegram_send_json`: skip when either credential is missing or
empty; otherwise send the compact payload, falling back to summary plus
attached document when it exceeds 3800 characters. -/
def telegram_send_json (token chatId : Option Str) (payload : Payload) : TelegramAction :=
  if !pyTruthy token || !pyTruthy chatId then .notConfigured
  else
    let text := dumpsPayload payload
    if 3800 < text.length then
      .sentSummaryAndDocument (summaryMessage payload) text "foresignal_signals.json".toList
    else .sentText text

/-- The environment of one run of `main`: the parsed document, whatever
state a previous run persisted (never read by the code), the Telegram
credentials, the timestamp and whether the history file exists. -/
structure RunEnv where
  doc : List Card
  prevState : Option (List Dict)
  token : Option Str
  chatId : Option Str
  pulledAt : Str
  historyExists : Bool
  deriving DecidableEq

/-- The effects a run of `main` performs. -/
structure RunEffects where
  wroteDailyCsv : Bool
  appendedHistory : Bool
  wroteHistoryHeader : Bool
  wroteDailyJson : Bool
  telegram : TelegramAction
  deriving DecidableEq

/-- Model of `main`: fetch and parse (collaborators), extract, then
unconditionally write the daily CSV, append to the history CSV (header
only when the file is new), write the daily JSON snapshot and hand the
payload to the Telegram sender. -/
def mainRun (env : RunEnv) : RunEffects :=
  let df := parse_signals env.doc
  let payload := build_json df env.pulledAt
  { wroteDailyCsv := true
    appendedHistory := true
    wroteHistoryHeader := !env.historyExists
    wroteDailyJson := true
    telegram := telegram_send_json env.token env.chatId payload }

/-- An environment whose previously persisted state equals the freshly
extracted SignalSet, with credentials configured. -/
def envUnchanged : RunEnv :=
  { doc := [bareCard "EUR/USD".toList]
    prevState := some (parse_signals [bareCard "EUR/USD".toList])
    token := some "token".toList
    chatId := some "chat".toList
    pulledAt := "2026-10-12T00:00:00+08:00".toList
    historyExists := true }

/-- A payload whose compact serialisation exceeds 3800 characters. -/
def payloadBig : Payload :=
  build_json (List.replicate 40 (initData "EUR/USD".toList "Active".toList))
    "2026-10-12T00:00:00+08:00".toList

theorem posContrib_eq_claimContrib (i : Nat) (c : Char) :
    posContrib i c = claimContrib i c := by
  simp only [posContrib, claimContrib]
  norm_num [show (MAP.length : Int) = 15 from rfl]

theorem decodeGo_eq_enumFrom (s : Str) :
    ∀ i : Nat, decodeGo s i = ((List.enumFrom i s).map fun p => posContrib p.1 p.2).flatten := by
  induction s with
  | nil => intro i; rfl
  | cons c t ih =>
      intro i
      simp [decodeGo, List.enumFrom, ih (i + 1)]

theorem posContrib_out {i : Nat} {c : Char} (h : outOfRange i c) :
    posContrib i c = [] := by
  unfold posContrib
  rw [if_neg]
  rintro ⟨h1, h2⟩
  rcases h with h | h
  · exact absurd h1 (not_le.mpr h)
  · exact absurd h2 (not_lt.mpr h)

theorem decodeGo_append (a b : Str) :
    ∀ i : Nat, decodeGo (a ++ b) i = decodeGo a i ++ decodeGo b (i + a.length) := by
  induction a with
  | nil => intro i; simp [decodeGo]
  | cons c t ih =>
      intro i
      have h : i + 1 + t.length = i + (t.length + 1) := by omega
      simp only [List.cons_append, decodeGo, List.append_eq, ih (i + 1), h,
        List.append_assoc, List.length_cons]

/-- C1: `decode_f` returns exactly the string described by the claim —
for each character at 0-based position `i`, with
`index = codepoint - 65 - i`, the decode table entry `MAP[index]` is
appended when `0 <= index < 15` and nothing otherwise, and the
concatenation is stripped of leading/trailing whitespace. -/
theorem decode_f_matches_claim (s : Str) : decode_f s = decodeClaim s := by
  unfold decode_f decodeClaim
  rw [decodeGo_eq_enumFrom s 0]
  have henum : s.enum = List.enumFrom 0 s := rfl
  rw [henum, List.map_congr_left fun a _ => posContrib_eq_claimContrib a.1 a.2]

/-- C2: the decoder is a total function (it is defined on every `Str`,
hence never throws), and a character whose shifted index is out of range
contributes nothing: the output is the same as if any other out-of-range
character stood at that position, and equals the stripped concatenation
of the contributions of the remaining positions alone. -/
theorem decode_f_out_of_range_contributes_nothing (u v : Str) (c c' : Char)
    (h1 : outOfRange u.length c) (h2 : outOfRange u.length c') :
    decode_f (u ++ c :: v) = decode_f (u ++ c' :: v) ∧
    decode_f (u ++ c :: v) = pyStrip (decodeGo u 0 ++ decodeGo v (u.length + 1)) := by
  have key : ∀ d : Char, outOfRange u.length d →
      decode_f (u ++ d :: v) = pyStrip (decodeGo u 0 ++ decodeGo v (u.length + 1)) := by
    intro d hd
    unfold decode_f
    rw [decodeGo_append u (d :: v) 0]
    simp only [decodeGo, posContrib_out hd, List.nil_append, Nat.zero_add]
  exact ⟨(key c h1).trans (key c' h2).symm, key c h1⟩

/-- Witness for C2 at the spec's sample token "LRU": the character `R` at
position 1 shifts to index 16, which is out of range and contributes
nothing. -/
theorem decode_f_out_of_range_witness :
    decode_f (['L'] ++ 'R' :: ['U']) = decode_f (['L'] ++ 'Z' :: ['U']) ∧
    decode_f (['L'] ++ 'R' :: ['U']) =
      pyStrip (decodeGo ['L'] 0 ++ decodeGo ['U'] (List.length ['L'] + 1)) :=
  decode_f_out_of_range_contributes_nothing ['L'] ['U'] 'R' 'Z'
    (by decide) (by decide)

/-- C5: the extracted value follows the ordered strategy chain — when the
cell holds a script whose text yields an `f('<token>')` capture and the
token decodes to a non-empty string, that decoded string is the value;
in every other case (decode empty, no capture, or no script) the value is
the first signed-decimal substring of the flattened, whitespace-collapsed,
fragment-stripped cell text, or the empty string when there is none. -/
theorem value_strategy_chain (cell : Cell) :
    (∀ st enc, cell.script = some st → extract_encoded_from_script st = some enc →
      decode_f enc ≠ [] → rowValue cell = decode_f enc) ∧
    (∀ st enc, cell.script = some st → extract_encoded_from_script st = some enc →
      decode_f enc = [] → rowValue cell = fallbackValue cell.text) ∧
    (∀ st, cell.script = some st → extract_encoded_from_script st = none →
      rowValue cell = fallbackValue cell.text) ∧
    (cell.script = none → rowValue cell = fallbackValue cell.text) := by
  refine ⟨?_, ?_, ?_, ?_⟩
  · intro st enc hst henc hne
    have hencne : ¬ enc.isEmpty := by
      intro h
      rw [List.isEmpty_iff] at h
      subst h
      exact hne rfl
    simp only [rowValue, value_from_signal_value, hst, henc, if_neg hencne,
      if_neg (fun h => hne (List.isEmpty_iff.mp h))]
    rfl
  · intro st enc hst henc heq
    by_cases hemp : enc.isEmpty
    · simp [rowValue, value_from_signal_value, fallbackValue, hst, henc, hemp]
    · have : (decode_f enc).isEmpty := by rw [heq]; rfl
      simp [rowValue, value_from_signal_value, fallbackValue, hst, henc, hemp, this]
  · intro st hst hnone
    simp [rowValue, value_from_signal_value, fallbackValue, hst, hnone]
  · intro hnone
    simp [rowValue, value_from_signal_value, fallbackValue, hnone]

/-- Witness for C5: a cell whose script is `f('LRU');` decodes the token
`LRU` (non-empty), so the decoded string is the value. -/
theorem value_strategy_chain_witness :
    rowValue { script := some scriptLRU, text := "ignored".toList } =
      decode_f "LRU".toList :=
  (value_strategy_chain { script := some scriptLRU, text := "ignored".toList }).1
    scriptLRU "LRU".toList rfl (by decide) (by decide)

/-! ### Dict lemmas -/

theorem lookup_setK_self (d : Dict) (k v : Str) : lookupK (setK d k v) k = some v := by
  induction d with
  | nil => simp [setK, lookupK]
  | cons p t ih =>
      obtain ⟨k0, v0⟩ := p
      by_cases h : k0 = k
      · simp [setK, lookupK, h]
      · simp [setK, lookupK, h, ih]

theorem lookup_setK_ne (d : Dict) (k k' v : Str) (h : k' ≠ k) :
    lookupK (setK d k' v) k = lookupK d k := by
  induction d with
  | nil => simp [setK, lookupK, h]
  | cons p t ih =>
      obtain ⟨k0, v0⟩ := p
      by_cases h0 : k0 = k'
      · subst h0
        simp [setK, lookupK, h]
      · by_cases h1 : k0 = k
        · subst h1
          simp [setK, lookupK, h0]
        · simp [setK, lookupK, h0, h1, ih]

theorem lookup_normalizeDict (d : Dict) (k : Str) :
    lookupK (normalizeDict d) k = (lookupK d k).map (normEntry k) := by
  induction d with
  | nil => rfl
  | cons p t ih =>
      obtain ⟨k0, v0⟩ := p
      by_cases h : k0 = k
      · subst h; simp [normalizeDict, lookupK]
      · simp only [normalizeDict, List.map_cons, lookupK, if_neg h]
        simpa [normalizeDict] using ih

theorem lookup_applyTitle_notPrice (d : Dict) (t v k : Str) (h : k ∉ priceCols) :
    lookupK (applyTitle d t v) k = lookupK d k := by
  have hne : ∀ k' : Str, k' ∈ priceCols → k' ≠ k := fun k' hk' he => h (he ▸ hk')
  unfold applyTitle
  split_ifs
  · exact lookup_setK_ne d k kSellAt v (hne kSellAt (by decide))
  · exact lookup_setK_ne d k kTakeProfitAt v (hne kTakeProfitAt (by decide))
  · exact lookup_setK_ne d k kStopLossAt v (hne kStopLossAt (by decide))
  · exact lookup_setK_ne d k kBuyAt v (hne kBuyAt (by decide))
  · exact lookup_setK_ne d k kBoughtAt v (hne kBoughtAt (by decide))
  · exact lookup_setK_ne d k kSoldAt v (hne kSoldAt (by decide))
  · rfl

theorem lookup_processRow_notPrice (d : Dict) (r : Row) (k : Str) (h : k ∉ priceCols) :
    lookupK (processRow d r) k = lookupK d k := by
  obtain ⟨ot, ov⟩ := r
  cases ot with
  | none => cases ov <;> rfl
  | some t =>
      cases ov with
      | none => rfl
      | some cell => exact lookup_applyTitle_notPrice d t (rowValue cell) k h

theorem lookup_processRows_notPrice (rows : List Row) (d : Dict) (k : Str)
    (h : k ∉ priceCols) : lookupK (processRows d rows) k = lookupK d k := by
  induction rows generalizing d with
  | nil => rfl
  | cons r rs ih =>
      show lookupK (processRows (processRow d r) rs) k = lookupK d k
      rw [ih (processRow d r), lookup_processRow_notPrice d r k h]

theorem pairOf_record (pair status : Str) (rows : List Row) :
    pairOf (normalizeDict (processRows (initData pair status) rows)) = pair := by
  unfold pairOf
  rw [lookup_normalizeDict, lookup_processRows_notPrice rows _ kPair (by decide)]
  rfl

/-! ### C3: output order of `parse_signals` -/

/-- C3 counterexample: `parse_signals` applies no sort.  A document whose
cards appear as EUR/USD then AUD/USD yields records in that same order,
which is not ascending by pair, and swapping the two input cards changes
the output. -/
theorem parse_signals_unsorted :
    sortedByPair (parse_signals [bareCard "EUR/USD".toList, bareCard "AUD/USD".toList]) = false ∧
    parse_signals [bareCard "EUR/USD".toList, bareCard "AUD/USD".toList] ≠
      parse_signals [bareCard "AUD/USD".toList, bareCard "EUR/USD".toList] := by
  constructor
  · rfl
  · decide

/-- C3 (amended): `parse_signals` preserves the document order of the
cards — it is a homomorphism for document concatenation, and the pair
fields of the output are exactly the pair anchors of the input cards, in
input order.  Hence reordering input cards permutes the output instead of
leaving it fixed. -/
theorem parse_signals_document_order :
    (∀ d1 d2 : List Card,
      parse_signals (d1 ++ d2) = parse_signals d1 ++ parse_signals d2) ∧
    (∀ doc : List Card, (parse_signals doc).map pairOf = doc.filterMap Card.pairEl) := by
  constructor
  · intro d1 d2
    simp [parse_signals, List.filterMap_append]
  · intro doc
    induction doc with
    | nil => rfl
    | cons c t ih =>
        obtain ⟨pe, se, rs⟩ := c
        cases pe with
        | none =>
            simpa [parse_signals, parseCard, List.filterMap_cons] using ih
        | some p =>
            simpa [parse_signals, parseCard, List.filterMap_cons, pairOf_record]
              using ih

/-! ### C6: dispatch of values by row title -/

/-- C6: the extracted value is routed into exactly the field selected by
the row title — exact match for "Sell at", "Stop loss at", "Buy at",
"Bought at" and "Sold at", prefix match for "Take profit", and any other
title leaves the record unchanged. -/
theorem title_dispatch (d : Dict) (t v : Str) :
    (t = strSellAt → applyTitle d t v = setK d kSellAt v) ∧
    (strTakeProfit.isPrefixOf t = true → applyTitle d t v = setK d kTakeProfitAt v) ∧
    (t = strStopLossAt → applyTitle d t v = setK d kStopLossAt v) ∧
    (t = strBuyAt → applyTitle d t v = setK d kBuyAt v) ∧
    (t = strBoughtAt → applyTitle d t v = setK d kBoughtAt v) ∧
    (t = strSoldAt → applyTitle d t v = setK d kSoldAt v) ∧
    (t ≠ strSellAt → strTakeProfit.isPrefixOf t = false → t ≠ strStopLossAt →
      t ≠ strBuyAt → t ≠ strBoughtAt → t ≠ strSoldAt → applyTitle d t v = d) := by
  refine ⟨?_, ?_, ?_, ?_, ?_, ?_, ?_⟩
  · intro h; subst h; simp [applyTitle]
  · intro hp
    have h1 : t ≠ strSellAt := by rintro rfl; revert hp; decide
    unfold applyTitle
    rw [if_neg h1, if_pos hp]
  · intro h; subst h
    unfold applyTitle
    rw [if_neg (by decide), if_neg (by decide), if_pos rfl]
  · intro h; subst h
    unfold applyTitle
    rw [if_neg (by decide), if_neg (by decide), if_neg (by decide), if_pos rfl]
  · intro h; subst h
    unfold applyTitle
    rw [if_neg (by decide), if_neg (by decide), if_neg (by decide),
      if_neg (by decide), if_pos rfl]
  · intro h; subst h
    unfold applyTitle
    rw [if_neg (by decide), if_neg (by decide), if_neg (by decide),
      if_neg (by decide), if_neg (by decide), if_pos rfl]
  · intro h1 h2 h3 h4 h5 h6
    simp [applyTitle, h1, h2, h3, h4, h5, h6]

/-- Witness for C6 at the spec's example title "Take profit (2R)": the
prefix match routes the value into the take-profit field. -/
theorem title_dispatch_witness :
    applyTitle (initData "EUR/USD".toList []) "Take profit (2R)".toList "1.1".toList =
      setK (initData "EUR/USD".toList []) kTakeProfitAt "1.1".toList :=
  (title_dispatch (initData "EUR/USD".toList []) "Take profit (2R)".toList
    "1.1".toList).2.1 (by decide)

/-! ### C7: presence of the six price fields -/

theorem lookup_setK_isSome (d : Dict) (k k' v : Str) (h : (lookupK d k).isSome) :
    (lookupK (setK d k' v) k).isSome := by
  by_cases he : k' = k
  · subst he; rw [lookup_setK_self]; rfl
  · rw [lookup_setK_ne d k k' v he]; exact h

theorem lookup_applyTitle_isSome (d : Dict) (t v k : Str)
    (h : (lookupK d k).isSome) : (lookupK (applyTitle d t v) k).isSome := by
  unfold applyTitle
  split_ifs <;> first | exact h | exact lookup_setK_isSome d k _ _ h

theorem lookup_processRow_isSome (d : Dict) (r : Row) (k : Str)
    (h : (lookupK d k).isSome) : (lookupK (processRow d r) k).isSome := by
  obtain ⟨ot, ov⟩ := r
  cases ot with
  | none => cases ov <;> exact h
  | some t =>
      cases ov with
      | none => exact h
      | some cell => exact lookup_applyTitle_isSome d t (rowValue cell) k h

theorem lookup_processRows_isSome (rows : List Row) (d : Dict) (k : Str)
    (h : (lookupK d k).isSome) : (lookupK (processRows d rows) k).isSome := by
  induction rows generalizing d with
  | nil => exact h
  | cons r rs ih => exact ih (processRow d r) (lookup_processRow_isSome d r k h)

/-- C7: every record produced by `parse_signals` carries all six price
fields as present keys (never absent, and their values are strings by
construction), and each price field is initialised to the empty string. -/
theorem price_fields_always_present :
    (∀ doc : List Card, ∀ r ∈ parse_signals doc, ∀ k ∈ priceCols,
      ∃ v, lookupK r k = some v) ∧
    (∀ pair status : Str, ∀ k ∈ priceCols, lookupK (initData pair status) k = some []) := by
  constructor
  · intro doc r hr k hk
    simp only [parse_signals, List.mem_map] at hr
    obtain ⟨d0, hd0, rfl⟩ := hr
    rw [List.mem_filterMap] at hd0
    obtain ⟨c, _, hc⟩ := hd0
    unfold parseCard at hc
    cases hpe : c.pairEl with
    | none => rw [hpe] at hc; cases hc
    | some p =>
        rw [hpe] at hc
        injection hc with hc
        subst hc
        have hinit : (lookupK (initData p (c.statusEl.getD [])) kPair).isSome := rfl
        have hinitk : (lookupK (initData p (c.statusEl.getD [])) k).isSome := by
          simp only [priceCols, List.mem_cons, List.not_mem_nil, or_false] at hk
          rcases hk with rfl | rfl | rfl | rfl | rfl | rfl <;> rfl
        have hrows := lookup_processRows_isSome c.rows _ k hinitk
        rw [Option.isSome_iff_exists] at hrows
        obtain ⟨v, hv⟩ := hrows
        exact ⟨normEntry k v, by rw [lookup_normalizeDict, hv]; rfl⟩
  · intro pair status k hk
    simp only [priceCols, List.mem_cons, List.not_mem_nil, or_false] at hk
    rcases hk with rfl | rfl | rfl | rfl | rfl | rfl <;> rfl

/-- Witness for C7: the sole record of a one-card document has a present
sell-at key. -/
theorem price_fields_always_present_witness :
    ∃ v, lookupK (normalizeDict (initData "EUR/USD".toList [])) kSellAt = some v :=
  price_fields_always_present.1 [bareCard "EUR/USD".toList]
    (normalizeDict (initData "EUR/USD".toList [])) (by decide) kSellAt (by decide)

/-! ### C10: later matching rows overwrite earlier ones -/

theorem applyTitle_eq_titleKey (d : Dict) (t v : Str) :
    applyTitle d t v =
      match titleKey t with
      | some k => setK d k v
      | none => d := by
  unfold applyTitle titleKey
  split_ifs <;> rfl

theorem lookup_processRow_other (d : Dict) (r : Row) (k : Str)
    (h : rowTarget r ≠ some k) : lookupK (processRow d r) k = lookupK d k := by
  obtain ⟨ot, ov⟩ := r
  cases ot with
  | none => cases ov <;> rfl
  | some t =>
      cases ov with
      | none => rfl
      | some cell =>
          show lookupK (applyTitle d t (rowValue cell)) k = lookupK d k
          rw [applyTitle_eq_titleKey]
          cases hk : titleKey t with
          | none => rfl
          | some k' =>
              have hne : k' ≠ k := fun he => h (by simp [rowTarget, hk, he])
              exact lookup_setK_ne d k k' _ hne

theorem lookup_processRows_other (rows : List Row) (d : Dict) (k : Str)
    (h : ∀ r ∈ rows, rowTarget r ≠ some k) :
    lookupK (processRows d rows) k = lookupK d k := by
  induction rows generalizing d with
  | nil => rfl
  | cons r rs ih =>
      show lookupK (processRows (processRow d r) rs) k = lookupK d k
      rw [ih (processRow d r) fun r' hr' => h r' (List.mem_cons_of_mem r hr'),
        lookup_processRow_other d r k (h r (List.mem_cons_self r rs))]

/-- C10: when several rows of a card dispatch to the same field, the
record ends up holding the value of the last such row in document order —
each later matching row overwrites the value set by earlier ones. -/
theorem last_matching_row_wins (d : Dict) (pre post : List Row) (r : Row) (k : Str)
    (hk : rowTarget r = some k)
    (hpost : ∀ r' ∈ post, rowTarget r' ≠ some k) :
    lookupK (processRows d (pre ++ r :: post)) k = some (rowVal r) := by
  have hsplit : processRows d (pre ++ r :: post)
      = processRows (processRow (processRows d pre) r) post := by
    simp [processRows, List.foldl_append]
  rw [hsplit, lookup_processRows_other post _ k hpost]
  obtain ⟨ot, ov⟩ := r
  cases ot with
  | none => cases ov <;> simp [rowTarget] at hk
  | some t =>
      cases ov with
      | none => simp [rowTarget] at hk
      | some cell =>
          simp only [rowTarget] at hk
          show lookupK (applyTitle _ t (rowValue cell)) k = _
          rw [applyTitle_eq_titleKey, hk]
          simpa [rowVal] using lookup_setK_self (processRows d pre) k (rowValue cell)

/-- Witness for C10: two "Buy at" rows; the record holds the second row's
value. -/
theorem last_matching_row_wins_witness :
    lookupK (processRows (initData "EUR/USD".toList [])
        [rowBuy "1.10".toList, rowBuy "1.20".toList]) kBuyAt
      = some (rowVal (rowBuy "1.20".toList)) :=
  last_matching_row_wins (initData "EUR/USD".toList []) [rowBuy "1.10".toList] []
    (rowBuy "1.20".toList) kBuyAt (by decide)
    (fun r' hr' => absurd hr' (List.not_mem_nil r'))

/-! ### C4: the orchestrator neither compares nor conditions on previous state -/

/-- C4 counterexample: on a run whose freshly extracted SignalSet equals
the previously persisted one, `main` still writes every artifact and
still notifies — the code performs no change detection at all. -/
theorem main_unchanged_still_writes_and_notifies :
    envUnchanged.prevState = some (parse_signals envUnchanged.doc) ∧
    (mainRun envUnchanged).wroteDailyJson = true ∧
    (mainRun envUnchanged).appendedHistory = true ∧
    (mainRun envUnchanged).telegram ≠ TelegramAction.notConfigured := by
  refine ⟨rfl, rfl, rfl, ?_⟩
  decide

/-- C4 (amended): `main` writes the daily CSV, appends to the history
CSV, writes the daily JSON and invokes the Telegram sender on every run,
and its behaviour is entirely independent of any previously persisted
state. -/
theorem main_always_writes_and_notifies (env : RunEnv) :
    (mainRun env).wroteDailyCsv = true ∧
    (mainRun env).appendedHistory = true ∧
    (mainRun env).wroteDailyJson = true ∧
    (mainRun env).telegram =
      telegram_send_json env.token env.chatId
        (build_json (parse_signals env.doc) env.pulledAt) ∧
    (∀ p : Option (List Dict), mainRun { env with prevState := p } = mainRun env) :=
  ⟨rfl, rfl, rfl, rfl, fun _ => rfl⟩

/-! ### C8: missing credentials are non-fatal -/

/-- C8: when either Telegram credential is unset (or empty), the run
still completes — `mainRun` is a total function — the notification step
reduces to the logged skip with no send attempted, and all snapshot
artifacts are still written. -/
theorem missing_credentials_skip (env : RunEnv)
    (h : pyTruthy env.token = false ∨ pyTruthy env.chatId = false) :
    (mainRun env).telegram = TelegramAction.notConfigured ∧
    (mainRun env).wroteDailyCsv = true ∧
    (mainRun env).appendedHistory = true ∧
    (mainRun env).wroteDailyJson = true := by
  refine ⟨?_, rfl, rfl, rfl⟩
  show telegram_send_json env.token env.chatId _ = _
  unfold telegram_send_json
  rcases h with h | h <;> simp [h]

/-- Witness for C8: unset token. -/
theorem missing_credentials_skip_witness :
    (mainRun { envUnchanged with token := none }).telegram =
        TelegramAction.notConfigured ∧
    (mainRun { envUnchanged with token := none }).wroteDailyCsv = true ∧
    (mainRun { envUnchanged with token := none }).appendedHistory = true ∧
    (mainRun { envUnchanged with token := none }).wroteDailyJson = true :=
  missing_credentials_skip { envUnchanged with token := none } (Or.inl rfl)

/-! ### C9: size-driven branching of the Telegram sender -/

/-- C9: with credentials configured, a payload whose compact serialisation
exceeds 3800 characters is sent as a short summary message (source,
pulled_at, signal count) plus the full serialisation attached as
`foresignal_signals.json`; otherwise the serialisation is sent as the
message text directly. -/
theorem oversize_payload_branch (token chatId : Option Str) (payload : Payload)
    (htok : pyTruthy token = true) (hcid : pyTruthy chatId = true) :
    (3800 < (dumpsPayload payload).length →
      telegram_send_json token chatId payload =
        TelegramAction.sentSummaryAndDocument (summaryMessage payload)
          (dumpsPayload payload) "foresignal_signals.json".toList) ∧
    ((dumpsPayload payload).length ≤ 3800 →
      telegram_send_json token chatId payload =
        TelegramAction.sentText (dumpsPayload payload)) := by
  unfold telegram_send_json
  rw [htok, hcid]
  constructor
  · intro hlen
    simp [hlen]
  · intro hlen
    simp [Nat.not_lt.mpr hlen]

theorem joinSep_cons_cons (sep a b : Str) (l : List Str) :
    joinSep sep (a :: b :: l) = a ++ sep ++ joinSep sep (b :: l) := rfl

theorem joinSep_replicate_length (sep x : Str) (n : Nat) :
    (joinSep sep (List.replicate (n + 1) x)).length
      = x.length + n * (sep.length + x.length) := by
  induction n with
  | zero => simp [joinSep]
  | succ m ih =>
      have h1 : List.replicate (m + 1 + 1) x = x :: List.replicate (m + 1) x := rfl
      have h2 : List.replicate (m + 1) x = x :: List.replicate m x := rfl
      rw [h1, h2, joinSep_cons_cons, ← h2]
      simp only [List.length_append, ih]
      ring

theorem payloadBig_signals : payloadBig.signals.map jsonDictCompact
    = List.replicate 40 (jsonDictCompact (initData "EUR/USD".toList "Active".toList)) := by
  simp [payloadBig, build_json, List.map_replicate]

theorem payloadBig_long : 3800 < (dumpsPayload payloadBig).length := by
  have hR : (jsonDictCompact (initData "EUR/USD".toList "Active".toList)).length = 127 := by
    decide
  have hjoin :
      (joinSep ",".toList (payloadBig.signals.map jsonDictCompact)).length = 5119 := by
    rw [payloadBig_signals, show (40 : Nat) = 39 + 1 from rfl,
      joinSep_replicate_length, hR]
    rfl
  simp only [dumpsPayload, List.length_cons, List.length_append]
  rw [hjoin]
  decide

/-- Witness for C9: a 40-record payload serialises to more than 3800
characters and is sent as summary plus document. -/
theorem oversize_payload_branch_witness :
    telegram_send_json (some "t".toList) (some "c".toList) payloadBig =
      TelegramAction.sentSummaryAndDocument (summaryMessage payloadBig)
        (dumpsPayload payloadBig) "foresignal_signals.json".toList :=
  (oversize_payload_branch (some "t".toList) (some "c".toList) payloadBig
    rfl rfl).1 payloadBig_long

end Foresignal
